import Mathlib

/-!
Verification of the Variant Data Extractor (a single-script Streamlit
application, `VCF_data_processor.py`) against its natural-language
specification.

The script is embedded shallowly:

* Python strings are `List Char`; an absent/NaN value is `none` in
  `Option (List Char)`.  The regular-expression character classes
  (`\w`, `\d`, `\s`) are modelled over their ASCII meaning.
* A pandas `DataFrame` is a `DFrame`: a list of column names and a list
  of rows, each row a list of optional cell values positioned like the
  column names.
* A raised `ValueError` is an `Except.error` carrying a structured
  `PErr` value whose fields are exactly the data interpolated into the
  Python message (user id, the two expected patterns, the available
  columns, the missing columns).
* `filter_variants` mutates its argument (`df["NormalizedRSID"] = ...`),
  so its embedding returns the post-state of the argument together with
  the returned frame.
-/

namespace VCFExtract

/-! ## Character-level helpers (ASCII model of the regex classes) -/

/-- ASCII model of the regex class `\w`: letters, digits, underscore. -/
def isWordChar (c : Char) : Bool := c.isAlphanum || c == '_'

/-- Lowercase a Python string (`str.lower`, ASCII model). -/
def lowerL (l : List Char) : List Char := l.map Char.toLower

/-- Python `str.strip()`: drop whitespace from both ends (ASCII model). -/
def pyStrip (l : List Char) : List Char :=
  ((l.dropWhile Char.isWhitespace).reverse.dropWhile Char.isWhitespace).reverse

/-! ## 1. `extract_rs_id` — the RSID Extractor

`re.search(r"\b(rs\d+)\b", str(text), flags=re.IGNORECASE)` followed by
`.group(1).lower()`.  `rsTokenAt` is the regex atom `(rs\d+)\b` tried at
the head of a suffix (with greedy digits), `rsBoundary`/`rsMatchAt`
describe a full-match position declaratively, and `searchRs` is the
leftmost-match scan performed by `re.search`. -/

/-- The regex atom `(rs\d+)\b` matched at the head of `l`: case-insensitive
`rs`, one or more digits taken greedily, and a word boundary after the
digits.  Returns the matched characters in their original case. -/
def rsTokenAt : List Char → Option (List Char)
  | c1 :: c2 :: rest =>
    if (c1 == 'r' || c1 == 'R') && (c2 == 's' || c2 == 'S') then
      let ds := rest.takeWhile Char.isDigit
      if ds.isEmpty then none
      else
        match rest.dropWhile Char.isDigit with
        | [] => some (c1 :: c2 :: ds)
        | d :: _ => if isWordChar d then none else some (c1 :: c2 :: ds)
    else none
  | _ => none

/-- Leftmost-match scan of `re.search`: try the atom at each position whose
preceding character is not a word character (`\b` before `r`), tracking
the word-character status of the previous character in `prevW`. -/
def searchRs : List Char → Bool → Option (List Char)
  | [], _ => none
  | c :: cs, prevW =>
    if prevW then searchRs cs (isWordChar c)
    else
      match rsTokenAt (c :: cs) with
      | some t => some t
      | none => searchRs cs (isWordChar c)

/-- Function `extract_rs_id(text)`: `None` for a missing value, otherwise the first
`\b(rs\d+)\b` match of the text, lowercased, or `None` when there is no
match. -/
def extract_rs_id : Option (List Char) → Option (List Char)
  | none => none
  | some l => (searchRs l false).map (List.map Char.toLower)

/-- Declarative word boundary before position `i` of `l`, where `prevW`
says whether the character just before `l` (position `-1`) is a word
character. -/
def rsBoundary (prevW : Bool) (l : List Char) : Nat → Bool
  | 0 => !prevW
  | i + 1 => !isWordChar (l.getD i ' ')

/-- Declaratively: the regex `\b(rs\d+)\b` matches at position `i` of `l`. -/
def rsMatchAt (prevW : Bool) (l : List Char) (i : Nat) : Bool :=
  rsBoundary prevW l i && (rsTokenAt (l.drop i)).isSome

theorem rsBoundary_cons (prevW : Bool) (c : Char) (cs : List Char) (i : Nat) :
    rsBoundary prevW (c :: cs) (i + 1) = rsBoundary (isWordChar c) cs i := by
  cases i <;> rfl

theorem rsMatchAt_cons (prevW : Bool) (c : Char) (cs : List Char) (i : Nat) :
    rsMatchAt prevW (c :: cs) (i + 1) = rsMatchAt (isWordChar c) cs i := by
  simp [rsMatchAt, rsBoundary_cons]

/-- Correctness of the scan: `searchRs` returns `none` exactly when no
position matches, and returns the token of the least matching position. -/
theorem searchRs_spec (l : List Char) : ∀ prevW : Bool,
    (searchRs l prevW = none ↔ ∀ i, rsMatchAt prevW l i = false) ∧
    (∀ t, searchRs l prevW = some t ↔
      ∃ i, rsBoundary prevW l i = true ∧ rsTokenAt (l.drop i) = some t ∧
        ∀ j, j < i → rsMatchAt prevW l j = false) := by
  induction l with
  | nil =>
    intro prevW
    refine ⟨⟨fun _ i => ?_, fun _ => rfl⟩, fun t => ⟨fun h => ?_, fun ⟨i, _, ht, _⟩ => ?_⟩⟩
    · simp [rsMatchAt, rsTokenAt]
    · simp [searchRs] at h
    · simp [rsTokenAt] at ht
  | cons c cs ih =>
    intro prevW
    by_cases hw : prevW
    · subst hw
      have h0 : rsMatchAt true (c :: cs) 0 = false := by
        simp [rsMatchAt, rsBoundary]
      have hrec : searchRs (c :: cs) true = searchRs cs (isWordChar c) := by
        simp [searchRs]
      constructor
      · rw [hrec, (ih (isWordChar c)).1]
        constructor
        · intro h i
          cases i with
          | zero => exact h0
          | succ j => rw [rsMatchAt_cons]; exact h j
        · intro h i
          have := h (i + 1)
          rwa [rsMatchAt_cons] at this
      · intro t
        rw [hrec, (ih (isWordChar c)).2 t]
        constructor
        · rintro ⟨i, hb, ht, hmin⟩
          refine ⟨i + 1, ?_, ?_, ?_⟩
          · rw [rsBoundary_cons]; exact hb
          · simpa using ht
          · intro j hj
            cases j with
            | zero => exact h0
            | succ k => rw [rsMatchAt_cons]; exact hmin k (Nat.lt_of_succ_lt_succ hj)
        · rintro ⟨i, hb, ht, hmin⟩
          cases i with
          | zero => simp [rsBoundary] at hb
          | succ k =>
            refine ⟨k, ?_, ?_, ?_⟩
            · rwa [rsBoundary_cons] at hb
            · simpa using ht
            · intro j hj
              have := hmin (j + 1) (Nat.succ_lt_succ hj)
              rwa [rsMatchAt_cons] at this
    · have hw' : prevW = false := by simpa using hw
      subst hw'
      cases hm : rsTokenAt (c :: cs) with
      | some t0 =>
        have h0 : rsMatchAt false (c :: cs) 0 = true := by
          simp [rsMatchAt, rsBoundary, hm]
        have hrec : searchRs (c :: cs) false = some t0 := by
          simp [searchRs, hm]
        constructor
        · rw [hrec]
          constructor
          · intro h; exact absurd h (by simp)
          · intro h
            have := h 0
            rw [h0] at this
            exact absurd this (by simp)
        · intro t
          rw [hrec]
          constructor
          · intro h
            obtain rfl : t0 = t := Option.some.inj h
            exact ⟨0, by simp [rsBoundary], by simpa using hm,
              fun j hj => absurd hj (Nat.not_lt_zero j)⟩
          · rintro ⟨i, hb, ht, hmin⟩
            cases i with
            | zero =>
              simp only [List.drop_zero] at ht
              rw [hm] at ht
              exact ht
            | succ k =>
              have := hmin 0 (Nat.succ_pos k)
              rw [h0] at this
              exact absurd this (by simp)
      | none =>
        have h0 : rsMatchAt false (c :: cs) 0 = false := by
          simp [rsMatchAt, rsBoundary, hm]
        have hrec : searchRs (c :: cs) false = searchRs cs (isWordChar c) := by
          simp [searchRs, hm]
        constructor
        · rw [hrec, (ih (isWordChar c)).1]
          constructor
          · intro h i
            cases i with
            | zero => exact h0
            | succ j => rw [rsMatchAt_cons]; exact h j
          · intro h i
            have := h (i + 1)
            rwa [rsMatchAt_cons] at this
        · intro t
          rw [hrec, (ih (isWordChar c)).2 t]
          constructor
          · rintro ⟨i, hb, ht, hmin⟩
            refine ⟨i + 1, ?_, ?_, ?_⟩
            · rw [rsBoundary_cons]; exact hb
            · simpa using ht
            · intro j hj
              cases j with
              | zero => exact h0
              | succ k => rw [rsMatchAt_cons]; exact hmin k (Nat.lt_of_succ_lt_succ hj)
          · rintro ⟨i, hb, ht, hmin⟩
            cases i with
            | zero =>
              simp only [List.drop_zero] at ht
              rw [hm] at ht
              exact absurd ht (by simp)
            | succ k =>
              refine ⟨k, ?_, ?_, ?_⟩
              · rwa [rsBoundary_cons] at hb
              · simpa using ht
              · intro j hj
                have := hmin (j + 1) (Nat.succ_lt_succ hj)
                rwa [rsMatchAt_cons] at this

example : extract_rs_id (some "hello Rs123 world".data) = some "rs123".data := by decide
example : extract_rs_id (some "Rs12345_extra".data) = none := by decide
example : extract_rs_id (some "no id here".data) = none := by decide
example : extract_rs_id none = none := rfl
example : extract_rs_id (some "xrs1 RS22,".data) = some "rs22".data := by decide

/-- Claim C2: for every input value, the RSID Extractor returns the first
whole-word `rs`+digits token (case-insensitive) lowercased — the token at
the least position with a word boundary and an `(rs\d+)\b` match — and an
absent result when no such token exists or the input is missing. -/
theorem c2_extract_first_rs_token :
    extract_rs_id none = none ∧
    ∀ l : List Char,
      (extract_rs_id (some l) = none ↔ ∀ i, rsMatchAt false l i = false) ∧
      (∀ t, extract_rs_id (some l) = some t ↔
        ∃ i raw, rsBoundary false l i = true ∧ rsTokenAt (l.drop i) = some raw ∧
          t = raw.map Char.toLower ∧
          ∀ j, j < i → rsMatchAt false l j = false) := by
  refine ⟨rfl, fun l => ⟨?_, ?_⟩⟩
  · rw [show extract_rs_id (some l)
        = (searchRs l false).map (List.map Char.toLower) from rfl]
    constructor
    · intro h
      have hs : searchRs l false = none := by
        cases hq : searchRs l false with
        | none => rfl
        | some t => rw [hq] at h; cases h
      exact (searchRs_spec l false).1.mp hs
    · intro h
      rw [(searchRs_spec l false).1.mpr h]
      rfl
  · intro t
    rw [show extract_rs_id (some l)
        = (searchRs l false).map (List.map Char.toLower) from rfl]
    constructor
    · intro h
      obtain ⟨raw, hs, hlow⟩ := Option.map_eq_some'.mp h
      obtain ⟨i, hb, ht, hmin⟩ := ((searchRs_spec l false).2 raw).mp hs
      exact ⟨i, raw, hb, ht, hlow.symm, hmin⟩
    · rintro ⟨i, raw, hb, ht, rfl, hmin⟩
      rw [((searchRs_spec l false).2 raw).mpr ⟨i, hb, ht, hmin⟩]
      rfl

theorem c2_witness :
    extract_rs_id (some "a Rs77".data) = some "rs77".data :=
  ((c2_extract_first_rs_token.2 "a Rs77".data).2 "rs77".data).mpr
    ⟨2, "Rs77".data, by decide, by decide, by decide, by decide⟩

/-! ## 2. `find_genotype_column` — the Genotype Column Resolver -/

/-- Python `str.startswith` on character lists (used to define `in`). -/
def startsWithL : List Char → List Char → Bool
  | [], _ => true
  | _ :: _, [] => false
  | a :: as, b :: bs => a == b && startsWithL as bs

/-- Python substring test `needle in hay`. -/
def containsSub (needle : List Char) : List Char → Bool
  | [] => needle == []
  | c :: t => startsWithL needle (c :: t) || containsSub needle t

theorem startsWithL_iff (n : List Char) : ∀ h : List Char,
    startsWithL n h = true ↔ ∃ t, h = n ++ t := by
  induction n with
  | nil => intro h; simp [startsWithL]
  | cons a as ih =>
    intro h
    cases h with
    | nil =>
      simp [startsWithL]
    | cons b bs =>
      simp only [startsWithL, Bool.and_eq_true, beq_iff_eq, ih bs, List.cons_append,
        List.cons.injEq]
      constructor
      · rintro ⟨rfl, t, rfl⟩; exact ⟨t, rfl, rfl⟩
      · rintro ⟨t, rfl, rfl⟩; exact ⟨rfl, t, rfl⟩

/-- Predicate `containsSub` is the substring relation. -/
theorem containsSub_iff (n : List Char) : ∀ h : List Char,
    containsSub n h = true ↔ ∃ pre post, h = pre ++ n ++ post := by
  intro h
  induction h with
  | nil =>
    simp only [containsSub, beq_iff_eq]
    constructor
    · rintro rfl; exact ⟨[], [], rfl⟩
    · rintro ⟨pre, post, hp⟩
      rcases List.append_eq_nil.mp (List.append_eq_nil.mp hp.symm).1 with ⟨_, h2⟩
      exact h2
  | cons c t ih =>
    simp only [containsSub, Bool.or_eq_true, startsWithL_iff, ih]
    constructor
    · rintro (⟨post, hp⟩ | ⟨pre, post, rfl⟩)
      · exact ⟨[], post, by simpa using hp⟩
      · exact ⟨c :: pre, post, rfl⟩
    · rintro ⟨pre, post, hp⟩
      cases pre with
      | nil => exact Or.inl ⟨post, by simpa using hp⟩
      | cons x xs =>
        rcases List.cons.injEq .. ▸ hp with ⟨-, h2⟩
        exact Or.inr ⟨xs, post, by simpa using h2⟩

/-- The dictionary `{c.lower(): c for c in df.columns}` looked up at `key`:
for duplicate lowercased names the later column wins (Python dict
semantics), hence the search over the reversed column list. -/
def lookupLower (cols : List (List Char)) (key : List Char) : Option (List Char) :=
  cols.reverse.find? (fun c => lowerL c == key)

/-- First expected pattern for a user identifier. -/
def pat1 (u : List Char) : List Char := u ++ ".Plus/Minus Alleles".data

/-- Second expected pattern for a user identifier. -/
def pat2 (u : List Char) : List Char := u ++ "-R.Plus/Minus Alleles".data

/-- Function `find_genotype_column(df, user_id)` over the column-name list: strip
the identifier, refuse an empty one, try the two exact (case-insensitive)
patterns through the lowercased-name dictionary, then fall back to the
first column containing the identifier (case-insensitively). -/
def find_genotype_column (cols : List (List Char)) (user_id0 : List Char) :
    Option (List Char) :=
  let user_id := pyStrip user_id0
  if user_id = [] then none
  else
    match lookupLower cols (lowerL (pat1 user_id)) with
    | some c => some c
    | none =>
      match lookupLower cols (lowerL (pat2 user_id)) with
      | some c => some c
      | none => cols.find? (fun c => containsSub (lowerL user_id) (lowerL c))

theorem lookupLower_spec (cols : List (List Char)) (key : List Char) :
    (∀ c, lookupLower cols key = some c → c ∈ cols ∧ lowerL c = key) ∧
    ((∃ c ∈ cols, lowerL c = key) → ∃ c, lookupLower cols key = some c) := by
  constructor
  · intro c hc
    refine ⟨List.mem_reverse.mp (List.mem_of_find?_eq_some hc), ?_⟩
    have := List.find?_some hc
    simpa using this
  · rintro ⟨c, hm, hl⟩
    have : (lookupLower cols key).isSome = true := by
      rw [lookupLower, List.find?_isSome]
      exact ⟨c, List.mem_reverse.mpr hm, by simpa using hl⟩
    exact Option.isSome_iff_exists.mp this

example : find_genotype_column ["IG1234.Plus/Minus Alleles".data, "other_IG1234_col".data]
    "IG1234".data = some "IG1234.Plus/Minus Alleles".data := by decide
example : find_genotype_column ["foo_IG1234_bar".data] "IG1234".data =
    some "foo_IG1234_bar".data := by decide
example : find_genotype_column ["Name".data, "Chr".data] "IG1234".data = none := by decide
example : find_genotype_column ["ig1234-r.plus/minus alleles".data, "x_IG1234".data]
    "  IG1234 ".data = some "ig1234-r.plus/minus alleles".data := by decide

/-- Claim C3: the Genotype Column Resolver returns an absent result for a
blank identifier, and otherwise applies the three tiers in strict priority
order with case-insensitive comparison — exact match on
`<identifier>.Plus/Minus Alleles`, then exact match on
`<identifier>-R.Plus/Minus Alleles`, then the first column in original
order containing the identifier as a substring — returning absent if no
tier matches; a tier-1 match is returned even when a tier-3 candidate also
exists (the tier-1 clause assumes nothing about the other tiers). -/
theorem c3_genotype_column_resolution (cols : List (List Char)) (uid : List Char) :
    (pyStrip uid = [] → find_genotype_column cols uid = none) ∧
    (pyStrip uid ≠ [] →
      ((∃ c ∈ cols, lowerL c = lowerL (pat1 (pyStrip uid))) →
        ∃ c ∈ cols, lowerL c = lowerL (pat1 (pyStrip uid)) ∧
          find_genotype_column cols uid = some c) ∧
      ((¬ ∃ c ∈ cols, lowerL c = lowerL (pat1 (pyStrip uid))) →
       (∃ c ∈ cols, lowerL c = lowerL (pat2 (pyStrip uid))) →
        ∃ c ∈ cols, lowerL c = lowerL (pat2 (pyStrip uid)) ∧
          find_genotype_column cols uid = some c) ∧
      ((¬ ∃ c ∈ cols, lowerL c = lowerL (pat1 (pyStrip uid))) →
       (¬ ∃ c ∈ cols, lowerL c = lowerL (pat2 (pyStrip uid))) →
        (∀ c, find_genotype_column cols uid = some c →
          c ∈ cols ∧ containsSub (lowerL (pyStrip uid)) (lowerL c) = true ∧
            ∃ pre suf, cols = pre ++ c :: suf ∧
              ∀ d ∈ pre, containsSub (lowerL (pyStrip uid)) (lowerL d) = false) ∧
        ((∀ c ∈ cols, containsSub (lowerL (pyStrip uid)) (lowerL c) = false) →
          find_genotype_column cols uid = none))) := by
  constructor
  · intro h
    simp [find_genotype_column, h]
  · intro hu
    have lk1 := lookupLower_spec cols (lowerL (pat1 (pyStrip uid)))
    have lk2 := lookupLower_spec cols (lowerL (pat2 (pyStrip uid)))
    refine ⟨?_, ?_, ?_⟩
    · intro h1
      obtain ⟨c, hlk⟩ := lk1.2 h1
      obtain ⟨hm, hl⟩ := lk1.1 c hlk
      exact ⟨c, hm, hl, by simp [find_genotype_column, hu, hlk]⟩
    · intro h1 h2
      have hnone1 : lookupLower cols (lowerL (pat1 (pyStrip uid))) = none := by
        cases hq : lookupLower cols (lowerL (pat1 (pyStrip uid))) with
        | none => rfl
        | some c =>
          obtain ⟨hm, hl⟩ := lk1.1 c hq
          exact absurd ⟨c, hm, hl⟩ h1
      obtain ⟨c, hlk⟩ := lk2.2 h2
      obtain ⟨hm, hl⟩ := lk2.1 c hlk
      exact ⟨c, hm, hl, by simp [find_genotype_column, hu, hnone1, hlk]⟩
    · intro h1 h2
      have hnone1 : lookupLower cols (lowerL (pat1 (pyStrip uid))) = none := by
        cases hq : lookupLower cols (lowerL (pat1 (pyStrip uid))) with
        | none => rfl
        | some c =>
          obtain ⟨hm, hl⟩ := lk1.1 c hq
          exact absurd ⟨c, hm, hl⟩ h1
      have hnone2 : lookupLower cols (lowerL (pat2 (pyStrip uid))) = none := by
        cases hq : lookupLower cols (lowerL (pat2 (pyStrip uid))) with
        | none => rfl
        | some c =>
          obtain ⟨hm, hl⟩ := lk2.1 c hq
          exact absurd ⟨c, hm, hl⟩ h2
      have hfind : find_genotype_column cols uid =
          cols.find? (fun c => containsSub (lowerL (pyStrip uid)) (lowerL c)) := by
        simp [find_genotype_column, hu, hnone1, hnone2]
      constructor
      · intro c hc
        rw [hfind] at hc
        obtain ⟨hp, pre, suf, hsplit, hpre⟩ := List.find?_eq_some.mp hc
        refine ⟨List.mem_of_find?_eq_some hc, hp, pre, suf, hsplit, fun d hd => ?_⟩
        have := hpre d hd
        simpa using this
      · intro hall
        rw [hfind]
        cases hq : cols.find? (fun c => containsSub (lowerL (pyStrip uid)) (lowerL c)) with
        | none => rfl
        | some c =>
          have hpc := List.find?_some hq
          have hmc := List.mem_of_find?_eq_some hq
          rw [hall c hmc] at hpc
          exact absurd hpc (by simp)

theorem c3_witness :
    find_genotype_column ["IG1234.Plus/Minus Alleles".data] "   ".data = none ∧
    find_genotype_column ["Name".data, "Chr".data] "IG1234".data = none :=
  ⟨(c3_genotype_column_resolution _ _).1 (by decide),
   (((c3_genotype_column_resolution ["Name".data, "Chr".data] "IG1234".data).2
      (by decide)).2.2 (by decide) (by decide)).2 (by decide)⟩

/-! ## Errors

Each `raise ValueError(...)` in the script is embedded as a structured
error value whose fields are the data interpolated into the Python
message. -/

/-- The `ValueError`s the script can raise (plus the `KeyError` pandas
would raise if `filter_variants` received a frame without a `Variant`
column). -/
inductive PErr where
  /-- Message `"Error reading file: ..."` in `process_vcf_file`. -/
  | readError
  /-- Message `"No variant list provided."` -/
  | noVariantList
  /-- Message `"No recognizable rsIDs found (e.g., rs12345)."` -/
  | noRsIDs
  /-- pandas `KeyError` on a missing `Variant` column in `filter_variants`. -/
  | keyError
  /-- Message `"Unable to find genotype column for user ..."` with the two
  expected patterns and the available column names. -/
  | genotypeColNotFound (user_id pattern1 pattern2 : List Char)
      (available : List (List Char))
  /-- Message `"Missing columns after processing: ..."` -/
  | missingColumns (missing : List (List Char))
deriving DecidableEq

instance {ε α : Type} [DecidableEq ε] [DecidableEq α] : DecidableEq (Except ε α) :=
  fun a b =>
    match a, b with
    | .error e, .error f =>
      decidable_of_iff (e = f) ⟨fun h => by rw [h], fun h => Except.error.inj h⟩
    | .error _, .ok _ => isFalse (fun h => by cases h)
    | .ok _, .error _ => isFalse (fun h => by cases h)
    | .ok x, .ok y =>
      decidable_of_iff (x = y) ⟨fun h => by rw [h], fun h => Except.ok.inj h⟩

/-! ## 4. `read_variant_list` — the Variant List Reader -/

/-- The separator class of `re.split(r"[,\n\s]+", content)`: a comma or
whitespace (ASCII model). -/
def isSepChar (c : Char) : Bool := c == ',' || c.isWhitespace

/-- Accumulator form of the tokenizer: `acc` holds the (reversed) run of
non-separator characters read so far. -/
def splitTokensAux : List Char → List Char → List (List Char)
  | [], acc => if acc = [] then [] else [acc.reverse]
  | c :: cs, acc =>
    if isSepChar c then
      if acc = [] then splitTokensAux cs []
      else acc.reverse :: splitTokensAux cs []
    else splitTokensAux cs (c :: acc)

/-- Python `re.split(r"[,\n\s]+", content)` followed by dropping empty pieces:
the maximal runs of non-separator characters, in order. -/
def splitTokens (l : List Char) : List (List Char) :=
  splitTokensAux l []

/-- The normalized rsIDs surviving from the tokens of `content`
(`filter(None, (extract_rs_id(t) for t in tokens))`, in token order). -/
def rsTokens (content : List Char) : List (List Char) :=
  (splitTokens content).filterMap (fun t => extract_rs_id (some t))

/-- Normalization tail of `read_variant_list`: build the de-duplicated
set of recognized rsIDs and fail when it is empty. -/
def mkVariantSet (content : List Char) : Except PErr (Finset (List Char)) :=
  let s := (rsTokens content).toFinset
  if s = ∅ then .error .noRsIDs else .ok s

/-- Function `read_variant_list(file_obj, text_input)`: the uploaded file content
if present, else the stripped pasted text when non-blank, else the
`"No variant list provided."` error; the chosen content then goes through
`mkVariantSet`.  (The uploaded file's bytes are modelled post lossy UTF-8
decoding, which cannot fail.) -/
def read_variant_list (file : Option (List Char)) (text : List Char) :
    Except PErr (Finset (List Char)) :=
  match file with
  | some content => mkVariantSet content
  | none =>
    if pyStrip text ≠ [] then mkVariantSet (pyStrip text)
    else .error .noVariantList

theorem splitTokensAux_tokens (l : List Char) : ∀ acc : List Char,
    (∀ c ∈ acc, isSepChar c = false) →
    ∀ t ∈ splitTokensAux l acc, t ≠ [] ∧ ∀ c ∈ t, isSepChar c = false := by
  induction l with
  | nil =>
    intro acc hacc t ht
    by_cases h : acc = []
    · simp [splitTokensAux, h] at ht
    · rw [splitTokensAux, if_neg h] at ht
      obtain rfl : t = acc.reverse := by simpa using ht
      refine ⟨by simpa using h, fun c hc => hacc c (List.mem_reverse.mp hc)⟩
  | cons c cs ih =>
    intro acc hacc t ht
    by_cases hsep : isSepChar c
    · by_cases h : acc = []
      · rw [splitTokensAux, if_pos hsep, if_pos h] at ht
        exact ih [] (by simp) t ht
      · rw [splitTokensAux, if_pos hsep, if_neg h] at ht
        rcases List.mem_cons.mp ht with rfl | hm
        · exact ⟨by simpa using h, fun d hd => hacc d (List.mem_reverse.mp hd)⟩
        · exact ih [] (by simp) t hm
    · rw [splitTokensAux, if_neg hsep] at ht
      refine ih (c :: acc) ?_ t ht
      intro d hd
      rcases List.mem_cons.mp hd with rfl | hd'
      · simpa using hsep
      · exact hacc d hd'

theorem splitTokensAux_flatten (l : List Char) : ∀ acc : List Char,
    (splitTokensAux l acc).flatten =
      acc.reverse ++ l.filter (fun c => !isSepChar c) := by
  induction l with
  | nil =>
    intro acc
    by_cases h : acc = []
    · simp [splitTokensAux, h]
    · simp [splitTokensAux, h]
  | cons c cs ih =>
    intro acc
    by_cases hsep : isSepChar c
    · by_cases h : acc = []
      · simp [splitTokensAux, hsep, h, List.filter_cons, ih]
      · simp [splitTokensAux, hsep, h, List.filter_cons, ih]
    · have hc : (!isSepChar c) = true := by simpa using hsep
      simp [splitTokensAux, hsep, List.filter_cons, hc, ih]

/-- Every token produced by `splitTokens` is non-empty and free of
separator characters. -/
theorem splitTokens_tokens (l : List Char) :
    ∀ t ∈ splitTokens l, t ≠ [] ∧ ∀ c ∈ t, isSepChar c = false :=
  splitTokensAux_tokens l [] (by simp)

/-- Concatenating the tokens of `splitTokens` recovers exactly the
non-separator characters of the input, in order: nothing but separators
is discarded by the tokenization. -/
theorem splitTokens_join (l : List Char) :
    (splitTokens l).flatten = l.filter (fun c => !isSepChar c) := by
  simpa using splitTokensAux_flatten l []

/-- Claim C4: the Variant List Reader consults exactly one source — the
uploaded file if present, else non-blank pasted text, else it fails with
the no-variant-list error — tokenizes the chosen content on runs of
commas/whitespace/newlines, drops tokens yielding no rsID, collapses the
survivors into a set, fails with the no-rsIDs error when that set is
empty, and therefore returns a non-empty Variant Set whenever it
succeeds. -/
theorem c4_variant_list_reader :
    (∀ (file : Option (List Char)) (text content : List Char), file = some content →
        read_variant_list file text = mkVariantSet content) ∧
    (∀ text : List Char, pyStrip text ≠ [] →
        read_variant_list none text = mkVariantSet (pyStrip text)) ∧
    (∀ text : List Char, pyStrip text = [] →
        read_variant_list none text = Except.error PErr.noVariantList) ∧
    (∀ content : List Char, mkVariantSet content =
        if (rsTokens content).toFinset = ∅ then Except.error PErr.noRsIDs
        else Except.ok ((rsTokens content).toFinset)) ∧
    (∀ (content r : List Char), r ∈ (rsTokens content).toFinset ↔
        ∃ t ∈ splitTokens content, extract_rs_id (some t) = some r) ∧
    (∀ (file : Option (List Char)) (text : List Char) (s : Finset (List Char)),
        read_variant_list file text = Except.ok s → s.Nonempty) := by
  have hmk : ∀ (c : List Char) (s : Finset (List Char)),
      mkVariantSet c = Except.ok s → s.Nonempty := by
    intro c s hc
    simp only [mkVariantSet] at hc
    by_cases he : (rsTokens c).toFinset = ∅
    · rw [if_pos he] at hc
      exact absurd hc (by simp)
    · rw [if_neg he] at hc
      obtain rfl : (rsTokens c).toFinset = s := by
        exact Except.ok.inj hc
      exact Finset.nonempty_iff_ne_empty.mpr he
  refine ⟨?_, ?_, ?_, ?_, ?_, ?_⟩
  · rintro file text content rfl
    rfl
  · intro text h
    simp [read_variant_list, h]
  · intro text h
    simp [read_variant_list, h]
  · intro content
    rfl
  · intro content r
    simp [rsTokens, List.mem_filterMap]
  · intro file text s hok
    cases file with
    | some c => exact hmk c s hok
    | none =>
      rw [read_variant_list] at hok
      by_cases ht : pyStrip text ≠ []
      · rw [if_pos ht] at hok
        exact hmk _ s hok
      · rw [if_neg ht] at hok
        exact absurd hok (by simp)

theorem c4_witness :
    read_variant_list none "rs1, rs2\nrs1 notanid rs3".data =
      Except.ok ({"rs1".data, "rs2".data, "rs3".data} : Finset (List Char)) ∧
    read_variant_list none "no ids at all".data = Except.error PErr.noRsIDs ∧
    read_variant_list none "   ".data = Except.error PErr.noVariantList ∧
    read_variant_list (some "rs77".data) "".data =
      Except.ok ({"rs77".data} : Finset (List Char)) := by
  have h := c4_variant_list_reader
  refine ⟨?_, ?_, ?_, ?_⟩
  · rw [h.2.1 _ (by decide)]
    decide
  · rw [h.2.1 _ (by decide)]
    decide
  · exact h.2.2.1 _ (by decide)
  · rw [h.1 (some "rs77".data) "".data "rs77".data rfl]
    decide

/-! ## Tabular model

A pandas `DataFrame` whose values are all text (`dtype=str`): a list of
column names plus a list of rows; row `r`'s cell for the column at
position `i` is `r.getD i none`, `none` standing for `NaN`. -/

structure DFrame where
  cols : List (List Char)
  rows : List (List (Option (List Char)))
deriving DecidableEq

/-- Column name `Variant`. -/
def colVariant : List Char := "Variant".data

/-- Column name `Chr`. -/
def colChr : List Char := "Chr".data

/-- Column name `Pos`. -/
def colPos : List Char := "Pos".data

/-- Column name `Genotype`. -/
def colGenotype : List Char := "Genotype".data

/-- Column name `NormalizedRSID` (the derived filter key column). -/
def colNormalized : List Char := "NormalizedRSID".data

/-- List `required = ["Variant", "Chr", "Pos", "Genotype"]`. -/
def requiredCols : List (List Char) := [colVariant, colChr, colPos, colGenotype]

/-- Cell of row `r` for column `name` (first matching column label). -/
def cellAt (cols : List (List Char)) (r : List (Option (List Char)))
    (name : List Char) : Option (List Char) :=
  match cols.findIdx? (fun c => c == name) with
  | some i => r.getD i none
  | none => none

/-- The rename map
`{"Name": "Variant", "Chr": "Chr", "Position": "Pos", genotype_col: "Genotype"}`
as a function on column names.  When `genotype_col` collides with one of
the literal keys the later `genotype_col` entry wins (Python dict
semantics), hence the `c = g` test first. -/
def renameFn (g : List Char) (c : List Char) : List Char :=
  if c = g then colGenotype
  else if c = "Name".data then colVariant
  else if c = "Chr".data then colChr
  else if c = "Position".data then colPos
  else c

/-- Function `process_vcf_file(uploaded_file, user_id)` from the parsed table on:
resolve the genotype column (raising the not-found error listing both
expected patterns and the available columns), rename the four columns,
fail with the missing-columns error if any required column is still
absent, and return `df[required]`.  Since `rename` can create duplicate
labels, `df[required]` follows pandas' non-unique label selection: for
each requested name, in request order, it keeps every column carrying
that label, in original column order — so a header renaming to, say, two
`Pos` labels yields a five-column result.  (The lossy UTF-8 decode and
the tab-separated parse are modelled by taking the parsed `DFrame` as
input.) -/
def process_vcf_file (df : DFrame) (user_id : List Char) : Except PErr DFrame :=
  match find_genotype_column df.cols user_id with
  | none => .error (.genotypeColNotFound user_id (pat1 user_id) (pat2 user_id) df.cols)
  | some g =>
    let cols2 := df.cols.map (renameFn g)
    let missing := requiredCols.filter (fun c => !(cols2.contains c))
    if missing = [] then
      .ok { cols := requiredCols.flatMap (fun n => cols2.filter (fun c => c == n)),
            rows := df.rows.map (fun r => requiredCols.flatMap (fun n =>
              ((cols2.zip r).filter (fun p => p.1 == n)).map Prod.snd)) }
    else .error (.missingColumns missing)

/-- Assignment `df[name] = vals`: overwrite the column in place when the label
exists, otherwise append it as the last column. -/
def setColumn (df : DFrame) (name : List Char)
    (vals : List (Option (List Char))) : DFrame :=
  match df.cols.findIdx? (fun c => c == name) with
  | some i =>
    { cols := df.cols, rows := (df.rows.zip vals).map (fun p => p.1.set i p.2) }
  | none =>
    { cols := df.cols ++ [name], rows := (df.rows.zip vals).map (fun p => p.1 ++ [p.2]) }

/-- Python `df.drop(columns=[name], errors="ignore")`: remove every column with
that label, cell-wise through the name/value pairing. -/
def dropColumn (df : DFrame) (name : List Char) : DFrame :=
  { cols := df.cols.filter (fun c => c != name),
    rows := df.rows.map (fun r =>
      ((df.cols.zip r).filter (fun p => p.1 != name)).map Prod.snd) }

/-- Function `filter_variants(df, variant_set)`.  The Python function assigns the
derived `NormalizedRSID` column into its argument (mutating the caller's
frame), keeps the rows whose normalized rsID is in the set, and drops the
derived column from the returned copy only.  The embedding returns
`(post, out)`: the post-state of the argument and the returned frame;
`none` models the `KeyError` pandas raises when there is no `Variant`
column. -/
def filter_variants (df : DFrame) (vs : Finset (List Char)) :
    Option (DFrame × DFrame) :=
  match df.cols.findIdx? (fun c => c == colVariant) with
  | none => none
  | some i =>
    let norm := df.rows.map (fun r => extract_rs_id (r.getD i none))
    let df2 := setColumn df colNormalized norm
    let keptRows := df2.rows.filter (fun r =>
      match cellAt df2.cols r colNormalized with
      | some x => decide (x ∈ vs)
      | none => false)
    let out := dropColumn { cols := df2.cols, rows := keptRows } colNormalized
    some (df2, out)

/-- Claim C6: in whole-file mode, when the genotype column cannot be
resolved the processor fails with the not-found error carrying both
expected naming patterns (`<id>.Plus/Minus Alleles` and
`<id>-R.Plus/Minus Alleles`) and the full list of available column
names, and no table is returned. -/
theorem c6_genotype_not_found (df : DFrame) (uid : List Char)
    (h : find_genotype_column df.cols uid = none) :
    process_vcf_file df uid =
      Except.error (PErr.genotypeColNotFound uid (pat1 uid) (pat2 uid) df.cols) ∧
    ∀ t : DFrame, process_vcf_file df uid ≠ Except.ok t := by
  have he : process_vcf_file df uid =
      Except.error (PErr.genotypeColNotFound uid (pat1 uid) (pat2 uid) df.cols) := by
    rw [process_vcf_file, h]
  exact ⟨he, fun t ht => by rw [he] at ht; cases ht⟩

theorem c6_witness :
    process_vcf_file { cols := ["Name".data, "Chr".data], rows := [] } "IG1234".data =
      Except.error (PErr.genotypeColNotFound "IG1234".data
        "IG1234.Plus/Minus Alleles".data "IG1234-R.Plus/Minus Alleles".data
        ["Name".data, "Chr".data]) :=
  (c6_genotype_not_found { cols := ["Name".data, "Chr".data], rows := [] }
    "IG1234".data (by decide)).1

/-- Claim C7: in whole-file mode, after renaming `Name` to `Variant`,
`Position` to `Pos` and the resolved genotype column to `Genotype`, if
any of the four required columns is still absent the processor fails
with the missing-columns error naming exactly the missing columns, and
the whole run fails rather than being tolerated. -/
theorem c7_missing_columns (df : DFrame) (uid g : List Char)
    (hg : find_genotype_column df.cols uid = some g)
    (hm : requiredCols.filter
      (fun c => !((df.cols.map (renameFn g)).contains c)) ≠ []) :
    process_vcf_file df uid =
      Except.error (PErr.missingColumns (requiredCols.filter
        (fun c => !((df.cols.map (renameFn g)).contains c)))) ∧
    ∀ t : DFrame, process_vcf_file df uid ≠ Except.ok t := by
  have he : process_vcf_file df uid =
      Except.error (PErr.missingColumns (requiredCols.filter
        (fun c => !((df.cols.map (renameFn g)).contains c)))) := by
    rw [process_vcf_file, hg]
    simp only [if_neg hm]
  exact ⟨he, fun t ht => by rw [he] at ht; cases ht⟩

/-- Removing the appended last column from an extended row restores the
original row, provided the original column names avoid the dropped
label and the row is rectangular. -/
theorem drop_extend_row (names : List (List Char)) (nm : List Char)
    (hn : ∀ n ∈ names, (n != nm) = true)
    (r : List (Option (List Char))) (hlen : names.length = r.length)
    (v : Option (List Char)) :
    (((names ++ [nm]).zip (r ++ [v])).filter (fun p => p.1 != nm)).map Prod.snd
      = r := by
  rw [List.zip_append hlen, List.filter_append]
  have h2 : ([nm].zip [v]).filter (fun p : List Char × Option (List Char) =>
      p.1 != nm) = [] := by
    simp
  have h1 : (names.zip r).filter (fun p => p.1 != nm) = names.zip r :=
    List.filter_eq_self.mpr (fun p hp => hn p.1 (List.of_mem_zip hp).1)
  rw [h1, h2, List.append_nil]
  exact List.map_snd_zip names r (Nat.le_of_eq hlen.symm)

/-- Behavior of `filter_variants` on a rectangular four-column frame: it
returns; the post-state of the argument has gained the `NormalizedRSID`
column; the returned frame has exactly the four required columns and its
rows are a subsequence (hence original rows in original order) of the
input rows. -/
theorem filter_variants_spec (df : DFrame) (vs : Finset (List Char))
    (hcols : df.cols = requiredCols)
    (hrect : ∀ r ∈ df.rows, r.length = 4) :
    ∃ post out, filter_variants df vs = some (post, out) ∧
      post.cols = requiredCols ++ [colNormalized] ∧
      out.cols = requiredCols ∧
      out.rows.Sublist df.rows := by
  have hidx : df.cols.findIdx? (fun c => c == colVariant) = some 0 := by
    rw [hcols]; decide
  have hnidx : df.cols.findIdx? (fun c => c == colNormalized) = none := by
    rw [hcols]; decide
  have hzip : ∀ f : List (Option (List Char)) → Option (List Char),
      df.rows.zip (df.rows.map f) = df.rows.map (fun r => (r, f r)) := by
    intro f
    have := List.zip_map' id f df.rows
    simpa using this
  have hset : ∀ f : List (Option (List Char)) → Option (List Char),
      setColumn df colNormalized (df.rows.map f) =
        { cols := df.cols ++ [colNormalized],
          rows := df.rows.map (fun r => r ++ [f r]) } := by
    intro f
    rw [setColumn, hnidx, hzip f, List.map_map]
    rfl
  have hrestore : ∀ r ∈ df.rows,
      (((df.cols ++ [colNormalized]).zip
          (r ++ [extract_rs_id (r.getD 0 none)])).filter
            (fun p => p.1 != colNormalized)).map Prod.snd = r := by
    intro r hr
    rw [hcols]
    exact drop_extend_row requiredCols colNormalized (by decide) r
      (by rw [hrect r hr]; decide) _
  simp only [filter_variants, hidx, hset, dropColumn]
  refine ⟨_, _, rfl, by simp [hcols], ?_, ?_⟩
  · simp only [hcols]
    decide
  · have hsub : ∀ P : List (Option (List Char)) → Bool,
        ((df.rows.filter P).map (fun r =>
          (((df.cols ++ [colNormalized]).zip
              (r ++ [extract_rs_id (r.getD 0 none)])).filter
                (fun p => p.1 != colNormalized)).map Prod.snd)).Sublist df.rows := by
      intro P
      rw [List.map_congr_left
        (fun r hr => hrestore r (List.mem_of_mem_filter hr))]
      simp
    simp only [List.filter_map, List.map_map, Function.comp]
    exact hsub _

theorem c7_witness :
    process_vcf_file
      { cols := ["Name".data, "Position".data, "IG1234.Plus/Minus Alleles".data],
        rows := [] } "IG1234".data =
      Except.error (PErr.missingColumns ["Chr".data]) := by
  have h := (c7_missing_columns
    { cols := ["Name".data, "Position".data, "IG1234.Plus/Minus Alleles".data],
      rows := [] } "IG1234".data "IG1234.Plus/Minus Alleles".data
    (by decide) (by decide)).1
  rw [h]
  decide

theorem zip_filter_fst_length {α β : Type} (p : α → Bool) :
    ∀ (l1 : List α) (l2 : List β), l1.length = l2.length →
      ((l1.zip l2).filter (fun x => p x.1)).length = (l1.filter p).length := by
  intro l1
  induction l1 with
  | nil =>
    intro l2 h
    rfl
  | cons a as ih =>
    intro l2 h
    cases l2 with
    | nil => cases h
    | cons b bs =>
      simp only [List.zip_cons_cons, List.filter_cons]
      by_cases hp : p a
      · simp [hp, ih bs (by simpa using h)]
      · simp [hp, ih bs (by simpa using h)]

theorem bind_length_congr {α β γ : Type} (l : List α) (f : α → List β)
    (g : α → List γ) (h : ∀ a ∈ l, (f a).length = (g a).length) :
    (l.flatMap f).length = (l.flatMap g).length := by
  induction l with
  | nil => rfl
  | cons a as ih =>
    simp only [List.flatMap_cons, List.length_append]
    rw [h a (List.mem_cons_self a as),
      ih (fun x hx => h x (List.mem_cons_of_mem a hx))]

/-- On success, the processed table is rectangular: every row has one
cell per output column (duplicate required labels included). -/
theorem process_ok_shape (df : DFrame) (uid : List Char) (dfp : DFrame)
    (hrect : ∀ r ∈ df.rows, r.length = df.cols.length)
    (hp : process_vcf_file df uid = Except.ok dfp) :
    ∀ r ∈ dfp.rows, r.length = dfp.cols.length := by
  rw [process_vcf_file] at hp
  split at hp
  · cases hp
  · rename_i g hg
    simp only at hp
    split at hp
    · obtain rfl : _ = dfp := Except.ok.inj hp
      intro r hr
      simp only [List.mem_map] at hr
      obtain ⟨r0, hr0, rfl⟩ := hr
      show (requiredCols.flatMap (fun n =>
          (((df.cols.map (renameFn g)).zip r0).filter
            (fun p => p.1 == n)).map Prod.snd)).length =
        (requiredCols.flatMap (fun n =>
          (df.cols.map (renameFn g)).filter (fun c => c == n))).length
      apply bind_length_congr
      intro n hn
      rw [List.length_map]
      have hl : (df.cols.map (renameFn g)).length = r0.length := by
        rw [List.length_map]
        exact (hrect r0 hr0).symm
      exact zip_filter_fst_length (fun c => c == n) _ r0 hl
    · cases hp

/-- A small genotype export used as a shared concrete test fixture: two
data rows, the first holding `rs100` and the second `rs200`. -/
def sampleExport : DFrame :=
  { cols := ["Name".data, "Chr".data, "Position".data,
      "IG1234.Plus/Minus Alleles".data],
    rows := [[some "rs100 x".data, some "1".data, some "123".data, some "AA".data],
             [some "rs200".data, some "2".data, some "456".data, some "GG".data]] }

/-- The table `process_vcf_file` produces from `sampleExport`. -/
def sampleProcessed : DFrame :=
  { cols := requiredCols,
    rows := [[some "rs100 x".data, some "1".data, some "123".data, some "AA".data],
             [some "rs200".data, some "2".data, some "456".data, some "GG".data]] }

example : process_vcf_file sampleExport "IG1234".data = Except.ok sampleProcessed := by
  decide

/-- A genotype export whose header carries both `Position` and a literal
`Pos` column: after renaming, the label `Pos` occurs twice, so pandas
keeps five columns in `df[required]`. -/
def dupExport : DFrame :=
  { cols := ["Name".data, "Chr".data, "Position".data, "Pos".data,
      "IG1234.Plus/Minus Alleles".data],
    rows := [[some "rs100".data, some "1".data, some "123".data,
      some "999".data, some "AA".data]] }

/-- The five-column table `process_vcf_file` produces from `dupExport`. -/
def dupProcessed : DFrame :=
  { cols := [colVariant, colChr, colPos, colPos, colGenotype],
    rows := [[some "rs100".data, some "1".data, some "123".data,
      some "999".data, some "AA".data]] }

/-- Post-state of `dupProcessed` after filtering (derived column gained). -/
def dupPost : DFrame :=
  { cols := [colVariant, colChr, colPos, colPos, colGenotype, colNormalized],
    rows := [[some "rs100".data, some "1".data, some "123".data,
      some "999".data, some "AA".data, some "rs100".data]] }

/-- The non-empty final filtered table for `dupExport`: five columns. -/
def dupOut : DFrame :=
  { cols := [colVariant, colChr, colPos, colPos, colGenotype],
    rows := [[some "rs100".data, some "1".data, some "123".data,
      some "999".data, some "AA".data]] }

/-- Claim C5 as written is false on the code: an export whose header has
both `Position` and a literal `Pos` column renames to a header with two
`Pos` labels, and `df[required]` keeps both (pandas non-unique label
selection), so the final filtered table is non-empty yet carries five
columns — not exactly the four required ones. -/
theorem c5_counterexample :
    process_vcf_file dupExport "IG1234".data = Except.ok dupProcessed ∧
    filter_variants dupProcessed ({"rs100".data} : Finset (List Char)) =
      some (dupPost, dupOut) ∧
    dupOut.rows ≠ [] ∧
    dupOut.cols ≠ requiredCols :=
  ⟨by decide, by decide, by decide, by decide⟩

/-- Claim C5 (amended): whenever the processed table has exactly the four
required columns — that is, the renamed header carries each required
label exactly once, ruling out the duplicate-label counterexample — the
final filtered table contains exactly the four columns `Variant`, `Chr`,
`Pos`, `Genotype` in that order, and its rows are rows of the processed
input table taken verbatim — so the `Variant` field holds the original
(non-normalized) identifier text of the source row — appearing in the
same relative order as in the input table.  (`hrect` states table
rectangularity, which every parsed pandas frame satisfies.) -/
theorem c5_filtered_table_shape (df : DFrame) (uid : List Char)
    (vs : Finset (List Char)) (dfp post out : DFrame)
    (hrect : ∀ r ∈ df.rows, r.length = df.cols.length)
    (hp : process_vcf_file df uid = Except.ok dfp)
    (hcols : dfp.cols = requiredCols)
    (hf : filter_variants dfp vs = some (post, out)) :
    out.cols = requiredCols ∧ out.rows.Sublist dfp.rows := by
  have hlen : ∀ r ∈ dfp.rows, r.length = 4 := by
    intro r hr
    rw [process_ok_shape df uid dfp hrect hp r hr, hcols]
    rfl
  obtain ⟨post2, out2, hf2, -, hout, hsub⟩ := filter_variants_spec dfp vs hcols hlen
  have hpair := Option.some.inj (hf2.symm.trans hf)
  have h1 : post2 = post := congrArg Prod.fst hpair
  have h2 : out2 = out := congrArg Prod.snd hpair
  subst h1
  subst h2
  exact ⟨hout, hsub⟩

theorem c5_witness :
    ({ cols := requiredCols,
       rows := [[some "rs100 x".data, some "1".data, some "123".data,
         some "AA".data]] } : DFrame).cols = requiredCols ∧
    ({ cols := requiredCols,
       rows := [[some "rs100 x".data, some "1".data, some "123".data,
         some "AA".data]] } : DFrame).rows.Sublist sampleProcessed.rows := by
  exact c5_filtered_table_shape sampleExport "IG1234".data
    ({"rs100".data} : Finset (List Char)) sampleProcessed
    { cols := requiredCols ++ [colNormalized],
      rows := [[some "rs100 x".data, some "1".data, some "123".data,
          some "AA".data, some "rs100".data],
        [some "rs200".data, some "2".data, some "456".data,
          some "GG".data, some "rs200".data]] }
    { cols := requiredCols,
      rows := [[some "rs100 x".data, some "1".data, some "123".data,
        some "AA".data]] }
    (by decide) (by decide) (by decide) (by decide)

/-- Claim C10: the Filter operation mutates its input table: after it
returns, the (post-state of the) input table has gained the
`NormalizedRSID` column — the derived column is dropped only from the
returned copy — so the input no longer has exactly the four required
columns. -/
theorem c10_filter_mutates_input (df : DFrame) (vs : Finset (List Char))
    (hcols : df.cols = requiredCols) (hrect : ∀ r ∈ df.rows, r.length = 4) :
    ∃ post out, filter_variants df vs = some (post, out) ∧
      post.cols = requiredCols ++ [colNormalized] ∧
      post.cols ≠ requiredCols ∧
      out.cols = requiredCols := by
  obtain ⟨post, out, hf, hpost, hout, -⟩ := filter_variants_spec df vs hcols hrect
  exact ⟨post, out, hf, hpost, by rw [hpost]; decide, hout⟩

theorem c10_witness :
    ∃ post out,
      filter_variants sampleProcessed ({"rs100".data} : Finset (List Char)) =
        some (post, out) ∧
      post.cols = requiredCols ++ [colNormalized] ∧
      post.cols ≠ requiredCols ∧
      out.cols = requiredCols :=
  c10_filter_mutates_input sampleProcessed ({"rs100".data} : Finset (List Char))
    (by decide) (by decide)

/-! ## 6. The Interactive Session Controller (`if run_clicked:` block) -/

/-- Property `df.empty` in pandas: true when any axis has length zero. -/
def pandasEmptyB (df : DFrame) : Bool := df.rows.isEmpty || df.cols.isEmpty

/-- One cell rendered by `to_csv`: `NaN` becomes the empty string. -/
def tsvCell : Option (List Char) → List Char
  | none => []
  | some v => v

/-- Python `df.to_csv(sep="\t", index=False)`: header line, then one
newline-terminated tab-separated line per row.  (Field quoting is not
modelled.) -/
def toTSV (df : DFrame) : List Char :=
  (List.intercalate ['\t'] df.cols ++ ['\n']) ++
    (df.rows.map (fun r =>
      List.intercalate ['\t'] (r.map tsvCell) ++ ['\n'])).flatten

/-- What one click of Run displays to the user.  `errNoFile` and
`errNoUserId` are the two validation `st.error`/`st.stop` exits,
`errCaught` is the top-level `except` banner, `warnNoMatches` is the
non-fatal `st.warning` for an empty result (no download offered), and
`success` carries the matched row count, the rendered table, and the
downloadable tab-separated bytes. -/
inductive UIOutcome where
  | errNoFile
  | errNoUserId
  | errCaught (e : PErr)
  | warnNoMatches
  | success (count : Nat) (table : DFrame) (tsv : List Char)
deriving DecidableEq

/-- The `if run_clicked:` pipeline: validate that the export file is
present and the stripped user identifier non-empty, then — inside the
try-block — run `process_vcf_file`, then `read_variant_list`, then
`filter_variants`, any raised error being caught and displayed; finally
render a warning for an empty filtered table and otherwise the success
outcome with count, table and download. -/
def run_pipeline (uploaded_vcf : Option DFrame) (user_id_raw : List Char)
    (variant_file : Option (List Char)) (variant_text : List Char) : UIOutcome :=
  let user_id := pyStrip user_id_raw
  match uploaded_vcf with
  | none => .errNoFile
  | some df =>
    if user_id = [] then .errNoUserId
    else
      match process_vcf_file df user_id with
      | .error e => .errCaught e
      | .ok dfp =>
        match read_variant_list variant_file variant_text with
        | .error e => .errCaught e
        | .ok vs =>
          match filter_variants dfp vs with
          | none => .errCaught .keyError
          | some (_, dff) =>
            if pandasEmptyB dff then .warnNoMatches
            else .success dff.rows.length dff (toTSV dff)

/-- Claim C1 as written is false on the code: for an input whose variant
list is unusable (`"xyz"` yields no rsIDs) and whose genotype column is
unresolvable, the surfaced error is the genotype-column error — the VCF
Table Processor runs before the Variant List Reader — not the
variant-list error the claim predicts. -/
theorem c1_counterexample :
    read_variant_list none "xyz".data = Except.error PErr.noRsIDs ∧
    run_pipeline (some { cols := ["A".data], rows := [] }) "IG1234".data
        none "xyz".data =
      UIOutcome.errCaught (PErr.genotypeColNotFound "IG1234".data
        "IG1234.Plus/Minus Alleles".data "IG1234-R.Plus/Minus Alleles".data
        ["A".data]) ∧
    run_pipeline (some { cols := ["A".data], rows := [] }) "IG1234".data
        none "xyz".data ≠ UIOutcome.errCaught PErr.noRsIDs ∧
    run_pipeline (some { cols := ["A".data], rows := [] }) "IG1234".data
        none "xyz".data ≠ UIOutcome.errCaught PErr.noVariantList :=
  ⟨by decide, by decide, by decide, by decide⟩

/-- Claim C1 (amended): after validating that the genotype file is present
and the user identifier is non-empty, the VCF Table Processor is invoked
before the Variant List Reader, and the Filter step runs last;
consequently, for an input where both the variant list is unusable and
the genotype column is unresolvable, the genotype-column error is the one
surfaced. -/
theorem c1_amended_pipeline_order (df : DFrame) (uidRaw vt : List Char)
    (vf : Option (List Char)) :
    (run_pipeline none uidRaw vf vt = UIOutcome.errNoFile) ∧
    (pyStrip uidRaw = [] →
      run_pipeline (some df) uidRaw vf vt = UIOutcome.errNoUserId) ∧
    (pyStrip uidRaw ≠ [] →
      ∀ e, process_vcf_file df (pyStrip uidRaw) = Except.error e →
      run_pipeline (some df) uidRaw vf vt = UIOutcome.errCaught e) ∧
    (pyStrip uidRaw ≠ [] →
      ∀ dfp e, process_vcf_file df (pyStrip uidRaw) = Except.ok dfp →
      read_variant_list vf vt = Except.error e →
      run_pipeline (some df) uidRaw vf vt = UIOutcome.errCaught e) ∧
    (pyStrip uidRaw ≠ [] →
      ∀ dfp vs, process_vcf_file df (pyStrip uidRaw) = Except.ok dfp →
      read_variant_list vf vt = Except.ok vs →
      run_pipeline (some df) uidRaw vf vt =
        (match filter_variants dfp vs with
         | none => UIOutcome.errCaught PErr.keyError
         | some (_, dff) =>
           if pandasEmptyB dff then UIOutcome.warnNoMatches
           else UIOutcome.success dff.rows.length dff (toTSV dff))) := by
  refine ⟨rfl, ?_, ?_, ?_, ?_⟩
  · intro h
    simp [run_pipeline, h]
  · intro h e he
    simp [run_pipeline, h, he]
  · intro h dfp e hp he
    simp [run_pipeline, h, hp, he]
  · intro h dfp vs hp hv
    simp [run_pipeline, h, hp, hv]

theorem c1_amended_witness :
    run_pipeline (some { cols := ["A".data], rows := [] }) "IG1234".data
        none "rs55".data =
      UIOutcome.errCaught (PErr.genotypeColNotFound "IG1234".data
        "IG1234.Plus/Minus Alleles".data "IG1234-R.Plus/Minus Alleles".data
        ["A".data]) :=
  (c1_amended_pipeline_order { cols := ["A".data], rows := [] } "IG1234".data
    "rs55".data none).2.2.1 (by decide)
    (PErr.genotypeColNotFound "IG1234".data
      "IG1234.Plus/Minus Alleles".data "IG1234-R.Plus/Minus Alleles".data
      ["A".data]) (by decide)

/-- The table the filter keeps from `sampleProcessed` for the set
`{rs100}`: exactly the first row. -/
def sampleFiltered : DFrame :=
  { cols := requiredCols,
    rows := [[some "rs100 x".data, some "1".data, some "123".data,
      some "AA".data]] }

/-- Claim C8: an empty filtered result is not an error — the controller
shows the non-fatal no-matching-variants warning and offers no download —
while a non-empty one yields the success outcome carrying the matched row
count, the rendered table, and the tab-separated download content. -/
theorem c8_empty_result_outcomes (df dfp : DFrame) (uidRaw vt : List Char)
    (vf : Option (List Char)) (vs : Finset (List Char)) (post dff : DFrame)
    (hu : pyStrip uidRaw ≠ [])
    (hp : process_vcf_file df (pyStrip uidRaw) = Except.ok dfp)
    (hv : read_variant_list vf vt = Except.ok vs)
    (hf : filter_variants dfp vs = some (post, dff)) :
    (pandasEmptyB dff = true →
      run_pipeline (some df) uidRaw vf vt = UIOutcome.warnNoMatches) ∧
    (pandasEmptyB dff = false →
      run_pipeline (some df) uidRaw vf vt =
        UIOutcome.success dff.rows.length dff (toTSV dff)) := by
  constructor
  · intro he
    simp [run_pipeline, hu, hp, hv, hf, he]
  · intro he
    simp [run_pipeline, hu, hp, hv, hf, he]

theorem c8_witness :
    run_pipeline (some sampleExport) "IG1234".data none "rs999".data =
      UIOutcome.warnNoMatches ∧
    run_pipeline (some sampleExport) "IG1234".data none "rs100".data =
      UIOutcome.success 1 sampleFiltered (toTSV sampleFiltered) := by
  constructor
  · exact (c8_empty_result_outcomes sampleExport sampleProcessed "IG1234".data
      "rs999".data none ({"rs999".data} : Finset (List Char))
      { cols := requiredCols ++ [colNormalized],
        rows := [[some "rs100 x".data, some "1".data, some "123".data,
            some "AA".data, some "rs100".data],
          [some "rs200".data, some "2".data, some "456".data,
            some "GG".data, some "rs200".data]] }
      { cols := requiredCols, rows := [] }
      (by decide) (by decide) (by decide) (by decide)).1 (by decide)
  · exact (c8_empty_result_outcomes sampleExport sampleProcessed "IG1234".data
      "rs100".data none ({"rs100".data} : Finset (List Char))
      { cols := requiredCols ++ [colNormalized],
        rows := [[some "rs100 x".data, some "1".data, some "123".data,
            some "AA".data, some "rs100".data],
          [some "rs200".data, some "2".data, some "456".data,
            some "GG".data, some "rs200".data]] }
      sampleFiltered
      (by decide) (by decide) (by decide) (by decide)).2 (by decide)

/-! ## 7. Streaming mode of the VCF Table Processor

The spec (§4.4) describes a second, memory-bounded operating mode of the
VCF Table Processor that reads the export in fixed-size blocks.  No such
chunked implementation appears among the provided source files (only the
whole-file `process_vcf_file` does), so the streaming mode is modelled
from the spec's own description. -/

/-- Fuel-indexed block splitter (`fuel ≥ l.length` makes the fuel
irrelevant; structural recursion keeps it kernel-computable). -/
def chunkRowsGo {α : Type} : Nat → Nat → List α → List (List α)
  | _, _, [] => []
  | 0, _, l => [l]
  | fuel + 1, n, x :: xs => (x :: xs).take n :: chunkRowsGo fuel n ((x :: xs).drop n)

/-- Split a row list into successive blocks of `n` rows (the last block
may be shorter), as `pd.read_csv(..., chunksize=n)` yields them. -/
def chunkRows {α : Type} (n : Nat) (l : List α) : List (List α) :=
  chunkRowsGo l.length n l

theorem chunkRowsGo_flatten {α : Type} :
    ∀ (fuel n : Nat) (l : List α), 0 < n → l.length ≤ fuel →
      (chunkRowsGo fuel n l).flatten = l := by
  intro fuel
  induction fuel with
  | zero =>
    intro n l hn hl
    obtain rfl : l = [] := List.eq_nil_of_length_eq_zero (Nat.le_zero.mp hl)
    rfl
  | succ fuel ih =>
    intro n l hn hl
    cases l with
    | nil => rfl
    | cons x xs =>
      show ((x :: xs).take n :: chunkRowsGo fuel n ((x :: xs).drop n)).flatten
        = x :: xs
      rw [List.flatten_cons, ih n ((x :: xs).drop n) hn ?_,
        List.take_append_drop]
      rw [List.length_drop]
      simp only [List.length_cons] at hl ⊢
      omega

/-- Concatenating blocks recovers the original row list. -/
theorem chunkRows_flatten {α : Type} (n : Nat) (l : List α) (hn : 0 < n) :
    (chunkRows n l).flatten = l :=
  chunkRowsGo_flatten l.length n l hn (Nat.le_refl _)

/-- Filter-then-project applied blockwise agrees with applying it to the
concatenation of the blocks. -/
theorem flatten_map_filter {α β : Type} (p : α → Bool) (f : α → β)
    (blocks : List (List α)) :
    (blocks.map (fun b => (b.filter p).map f)).flatten =
      (blocks.flatten.filter p).map f := by
  induction blocks with
  | nil => rfl
  | cons b bs ih => simp [List.filter_append, ih]

/-- Modelled from the spec: per-block body of the streaming mode (the
whole-file source has no chunked reader).  Per §4.4, for every block the
four columns are renamed (the rename is reflected in `cols2`, the renamed
header shared by all blocks); a block missing a required column is
skipped entirely; surviving blocks keep the rows whose Normalized RSID
(extracted from the `Variant` field by §4.1) is in the Variant Set, each
row restricted to the four required columns in order. -/
def streamKeepBlock (cols2 : List (List Char)) (vs : Finset (List Char))
    (block : List (List (Option (List Char)))) :
    List (List (Option (List Char))) :=
  if requiredCols.all (fun c => cols2.contains c) then
    (block.filter (fun r =>
      match extract_rs_id (cellAt cols2 r colVariant) with
      | some x => decide (x ∈ vs)
      | none => false)).map (fun r => requiredCols.map (fun nm => cellAt cols2 r nm))
  else []

/-- Modelled from the spec: the streaming mode of the VCF Table Processor
(§4.4), absent from the provided source files.  The export's rows are
read in successive blocks of `chunkSize` rows; the genotype column is
resolved once via §4.2 (its resolution uses only the header, shared by the
first and every other block), failing with the not-found error; every
block is renamed, filtered and projected by `streamKeepBlock`; the kept
rows are concatenated in encounter order under the four required
columns. -/
def process_vcf_streaming (df : DFrame) (user_id : List Char)
    (vs : Finset (List Char)) (chunkSize : Nat) : Except PErr DFrame :=
  match find_genotype_column df.cols user_id with
  | none =>
    .error (.genotypeColNotFound user_id (pat1 user_id) (pat2 user_id) df.cols)
  | some g =>
    .ok { cols := requiredCols,
          rows := ((chunkRows chunkSize df.rows).map
            (streamKeepBlock (df.cols.map (renameFn g)) vs)).flatten }

/-- Blockwise processing collapses to processing the concatenated rows. -/
theorem streamKeepBlock_chunks (cols2 : List (List Char))
    (vs : Finset (List Char)) (k : Nat) (hk : 0 < k)
    (rows : List (List (Option (List Char)))) :
    ((chunkRows k rows).map (streamKeepBlock cols2 vs)).flatten =
      streamKeepBlock cols2 vs rows := by
  by_cases hcond : requiredCols.all (fun c => cols2.contains c)
  · have hb : streamKeepBlock cols2 vs = fun b =>
        (b.filter (fun r =>
          match extract_rs_id (cellAt cols2 r colVariant) with
          | some x => decide (x ∈ vs)
          | none => false)).map
            (fun r => requiredCols.map (fun nm => cellAt cols2 r nm)) := by
      funext b
      rw [streamKeepBlock, if_pos hcond]
    rw [hb, flatten_map_filter, chunkRows_flatten k rows hk]
  · have hb : streamKeepBlock cols2 vs = fun _ => [] := by
      funext b
      rw [streamKeepBlock, if_neg hcond]
    rw [hb]
    simp

/-- Claim C9: the streaming mode reads the export in fixed-size blocks,
and for every input the result is independent of the block size —
processing in many blocks is identical (same rows, same order) to
processing in a single block. -/
theorem c9_chunk_size_invisible (df : DFrame) (uid : List Char)
    (vs : Finset (List Char)) (n m : Nat) (hn : 0 < n) (hm : 0 < m) :
    process_vcf_streaming df uid vs n = process_vcf_streaming df uid vs m := by
  rw [process_vcf_streaming, process_vcf_streaming]
  cases hg : find_genotype_column df.cols uid with
  | none => rfl
  | some g =>
    simp only [streamKeepBlock_chunks (List.map (renameFn g) df.cols) vs n hn,
      streamKeepBlock_chunks (List.map (renameFn g) df.cols) vs m hm]

theorem c9_witness :
    process_vcf_streaming sampleExport "IG1234".data
      ({"rs100".data} : Finset (List Char)) 1 =
    process_vcf_streaming sampleExport "IG1234".data
      ({"rs100".data} : Finset (List Char)) 2 :=
  c9_chunk_size_invisible sampleExport "IG1234".data
    ({"rs100".data} : Finset (List Char)) 1 2 (by decide) (by decide)

example : process_vcf_streaming sampleExport "IG1234".data
    ({"rs100".data} : Finset (List Char)) 1 = Except.ok sampleFiltered := by
  decide

end VCFExtract
